import Mathlib

/-!
Verification development for the macOS system-data cleaner
(src/app.mjs, src/worker.js and the earlier sequential draft).

The filesystem is embedded as an inductive tree; the recursive size
aggregation, the protected-path guard, the remover and the chunked
dispatch loops are translated from the source into executable Lean
functions, and the specification claims are settled against them.
-/

/-- A size report as produced by the aggregation engine
(src/app.mjs lines 229-233 and src/worker.js lines 40-44):
total number of bytes and number of regular files counted.
The human-readable rendering (prettyBytes) is display glue and not modelled. -/
structure SizeReport where
  totalBytes : Nat
  items : Nat
deriving DecidableEq, Repr

/-- A filesystem subtree, as observed through the Node.js calls that the
source makes (readdir with dirent types, stat).

* `file s` — a regular file of size `s` bytes (stat succeeds).
* `dir readable entries` — a directory; its dirent type is directory.
  When `readable` is false, readdir on it fails (permission denied);
  stat on it still succeeds and reports it as a directory.
* `symlinkFile linkSize targetSize` — a symbolic link whose target is a
  regular file of size `targetSize`; the link itself occupies `linkSize`
  bytes of metadata.  Its dirent type is NOT a directory, and `fs.stat`
  on it follows the link, reporting a regular file of size `targetSize`.
* `denied` — a non-directory entry on which stat fails
  (vanished mid-walk, permission denied, broken link, I/O error). -/
inductive FSTree where
  | file (size : Nat)
  | dir (readable : Bool) (entries : List (String × FSTree))
  | symlinkFile (linkSize : Nat) (targetSize : Nat)
  | denied

/-- Pointwise sum of two size reports; the source accumulates
`totalBytes += ...; fileCount++` across a loop, which this models. -/
def addReport (a b : SizeReport) : SizeReport :=
  ⟨a.totalBytes + b.totalBytes, a.items + b.items⟩

/-- The entry loop of `processDirectory` (src/app.mjs lines 199-215):
for each dirent of a readable directory, if the dirent is a directory,
recurse (a readdir failure inside is absorbed and contributes zero);
otherwise stat the entry and add its size and one to the count, with a
stat failure absorbed so that traversal continues with the siblings.
Stat follows symbolic links, so a link to a regular file contributes the
size of the target. -/
def procEntries : List (String × FSTree) → SizeReport
  | [] => ⟨0, 0⟩
  | (_, FSTree.dir true es) :: rest => addReport (procEntries es) (procEntries rest)
  | (_, FSTree.dir false _) :: rest => addReport ⟨0, 0⟩ (procEntries rest)
  | (_, FSTree.file s) :: rest => addReport ⟨s, 1⟩ (procEntries rest)
  | (_, FSTree.symlinkFile _ ts) :: rest => addReport ⟨ts, 1⟩ (procEntries rest)
  | (_, FSTree.denied) :: rest => addReport ⟨0, 0⟩ (procEntries rest)

/-- The top level of `calculateSize` (src/app.mjs lines 217-233, identical
in behaviour to `getTotalSize` of src/worker.js on the modelled shapes):
stat the root; if stat fails return the zero report; if the root is a
directory run the entry loop (a failing readdir is absorbed to zero);
otherwise report the statted size and one item.  Stat follows a symbolic
link at the root, reporting the target. -/
def calculateSize : FSTree → SizeReport
  | FSTree.denied => ⟨0, 0⟩
  | FSTree.file s => ⟨s, 1⟩
  | FSTree.symlinkFile _ ts => ⟨ts, 1⟩
  | FSTree.dir true es => procEntries es
  | FSTree.dir false _ => ⟨0, 0⟩

/-- Modelled from the spec: the sum of the sizes of all regular files
reachable from the entries of a directory, with entries under
inaccessible subtrees excluded, directories contributing zero, and
symbolic links not being regular files. -/
def reachSumL : List (String × FSTree) → Nat
  | [] => 0
  | (_, FSTree.file s) :: rest => s + reachSumL rest
  | (_, FSTree.dir true es) :: rest => reachSumL es + reachSumL rest
  | (_, FSTree.dir false _) :: rest => reachSumL rest
  | (_, FSTree.symlinkFile _ _) :: rest => reachSumL rest
  | (_, FSTree.denied) :: rest => reachSumL rest

/-- Modelled from the spec: the number of regular files reachable from
the entries of a directory, inaccessible subtrees excluded. -/
def reachCountL : List (String × FSTree) → Nat
  | [] => 0
  | (_, FSTree.file _) :: rest => 1 + reachCountL rest
  | (_, FSTree.dir true es) :: rest => reachCountL es + reachCountL rest
  | (_, FSTree.dir false _) :: rest => reachCountL rest
  | (_, FSTree.symlinkFile _ _) :: rest => reachCountL rest
  | (_, FSTree.denied) :: rest => reachCountL rest

/-- Modelled from the spec: the sum of the sizes of all regular files
reachable from a root path. -/
def reachSum : FSTree → Nat
  | FSTree.file s => s
  | FSTree.dir true es => reachSumL es
  | _ => 0

/-- Modelled from the spec: the number of regular files reachable from a
root path. -/
def reachCount : FSTree → Nat
  | FSTree.file _ => 1
  | FSTree.dir true es => reachCountL es
  | _ => 0

/-- True when no symbolic link occurs anywhere in an entry list. -/
def symlinkFreeL : List (String × FSTree) → Bool
  | [] => true
  | (_, FSTree.symlinkFile _ _) :: _ => false
  | (_, FSTree.dir _ es) :: rest => symlinkFreeL es && symlinkFreeL rest
  | (_, FSTree.file _) :: rest => symlinkFreeL rest
  | (_, FSTree.denied) :: rest => symlinkFreeL rest

/-- True when no symbolic link occurs anywhere in a tree. -/
def symlinkFree : FSTree → Bool
  | FSTree.symlinkFile _ _ => false
  | FSTree.dir _ es => symlinkFreeL es
  | _ => true

/-- Every entry list with no symbolic links aggregates to exactly the
reachable-file sum and count described by the spec. -/
theorem procEntries_spec (l : List (String × FSTree)) (h : symlinkFreeL l = true) :
    procEntries l = ⟨reachSumL l, reachCountL l⟩ := by
  induction l using procEntries.induct with
  | _ => simp_all [procEntries, reachSumL, reachCountL, symlinkFreeL, addReport]

/-- C2: over every symlink-free tree, the aggregated totalBytes is the
sum of the sizes of all regular files reachable from the root
(inaccessible subtrees excluded, directories contributing zero) and the
aggregated item count is the number of such files; and aggregation of a
single regular file reports the size of the file and one item. -/
theorem sizeAggregation_correct :
    (∀ t : FSTree, symlinkFree t = true →
      (calculateSize t).totalBytes = reachSum t ∧ (calculateSize t).items = reachCount t) ∧
    (∀ n : Nat, calculateSize (FSTree.file n) = ⟨n, 1⟩) := by
  refine ⟨fun t h => ?_, fun n => rfl⟩
  cases t with
  | file s => exact ⟨rfl, rfl⟩
  | denied => exact ⟨rfl, rfl⟩
  | symlinkFile a b => simp [symlinkFree] at h
  | dir readable es =>
      cases readable with
      | false => exact ⟨rfl, rfl⟩
      | true =>
          have := procEntries_spec es (by simpa [symlinkFree] using h)
          simp [calculateSize, reachSum, reachCount, this]

/-- A concrete symlink-free tree used to witness the aggregation claims:
a readable directory holding a regular file of 3 bytes, a readable
subdirectory holding a regular file of 4 bytes, an unreadable
subdirectory holding a regular file of 100 bytes, and an entry whose
stat fails. -/
def sampleTree : FSTree :=
  FSTree.dir true
    [("a.log", FSTree.file 3),
     ("sub", FSTree.dir true [("b.log", FSTree.file 4)]),
     ("locked", FSTree.dir false [("hidden", FSTree.file 100)]),
     ("gone", FSTree.denied)]

/-- Witness for C2 at a concrete tree. -/
theorem sizeAggregation_correct_witness :
    symlinkFree sampleTree = true ∧
    ((calculateSize sampleTree).totalBytes = reachSum sampleTree ∧
     (calculateSize sampleTree).items = reachCount sampleTree) :=
  ⟨by simp [sampleTree, symlinkFree, symlinkFreeL],
   sizeAggregation_correct.1 sampleTree (by simp [sampleTree, symlinkFree, symlinkFreeL])⟩

/-- C3: aggregation never fails; it is a total function into size
reports.  A root whose stat fails yields the zero report, a root
directory whose readdir fails yields the zero report, and an entry whose
stat fails contributes zero while traversal continues with its siblings. -/
theorem sizeAggregation_total :
    calculateSize FSTree.denied = ⟨0, 0⟩ ∧
    (∀ es : List (String × FSTree), calculateSize (FSTree.dir false es) = ⟨0, 0⟩) ∧
    (∀ (n : String) (rest : List (String × FSTree)),
      procEntries ((n, FSTree.denied) :: rest) = procEntries rest) := by
  refine ⟨rfl, fun es => rfl, fun n rest => ?_⟩
  simp [procEntries, addReport]

/-- C4 evidence: the code follows the symbolic link when sizing it.  On a
readable directory holding one symbolic link of 10 metadata bytes whose
target is a regular file of 20 bytes, the aggregation reports 20 bytes —
the size of the target, obtained because `fs.stat` follows links —
whereas the claim requires the size of the link itself, 10 bytes. -/
theorem symlink_sized_as_target :
    calculateSize (FSTree.dir true [("link", FSTree.symlinkFile 10 20)]) =
      ⟨20, 1⟩ ∧ (20 : Nat) ≠ 10 := by
  constructor
  · simp [calculateSize, procEntries, addReport]
  · decide

/-- The fixed denylist of protected locations
(src/app.mjs lines 24-30, `this.protectedPaths`). -/
def protectedPaths : List String :=
  ["/System",
   "/Library/LaunchDaemons",
   "/Library/LaunchAgents",
   "/System/Library/LaunchDaemons",
   "/System/Library/LaunchAgents"]

/-- `isProtectedPath` (src/app.mjs lines 151-153): the candidate path is
protected when some denylist entry is a RAW STRING PREFIX of it —
JavaScript `itemPath.startsWith(protectedPath)`, embedded as a prefix
test on the character sequences of the two strings. -/
def isProtectedPath (itemPath : String) : Bool :=
  protectedPaths.any fun pp => pp.data.isPrefixOf itemPath.data

/-- C1 evidence: the guard agrees with four of the five test vectors of
the claim but classifies "/Systemic" as protected, because the source
matches by raw string prefix ("/Systemic" starts with the characters of
"/System") where the claim requires path-segment-wise matching under
which "/Systemic" is not protected. -/
theorem pathGuard_matches_raw_string :
    isProtectedPath "/System" = true ∧
    isProtectedPath "/System/Library/Foo" = true ∧
    isProtectedPath "/Library/LaunchAgents/x.plist" = true ∧
    isProtectedPath "/Library/Launch" = false ∧
    isProtectedPath "/Systemic" = true := by
  refine ⟨?_, ?_, ?_, ?_, ?_⟩ <;> decide

/-- A character-list prefix stays a prefix after appending on the right. -/
theorem isPrefixOf_append_right (l p s : List Char) (h : l.isPrefixOf p = true) :
    l.isPrefixOf (p ++ s) = true := by
  induction l generalizing p with
  | nil => simp [List.isPrefixOf]
  | cons a as ih =>
      cases p with
      | nil => simp [List.isPrefixOf] at h
      | cons b bs =>
          simp only [List.cons_append, List.isPrefixOf, Bool.and_eq_true] at h ⊢
          exact ⟨h.1, ih bs h.2⟩

/-- C10: the guard is monotone under string extension — any string
extension of a protected path is itself protected, because a raw string
prefix of the path is still a prefix of the extended path. -/
theorem pathGuard_monotone (p s : String) (h : isProtectedPath p = true) :
    isProtectedPath (p ++ s) = true := by
  simp only [isProtectedPath, List.any_eq_true] at h ⊢
  obtain ⟨pp, hmem, hpre⟩ := h
  refine ⟨pp, hmem, ?_⟩
  have hdata : (p ++ s).data = p.data ++ s.data := String.data_append p s
  rw [hdata]
  exact isPrefixOf_append_right pp.data p.data s.data hpre

/-- Witness for C10 at a concrete protected path and suffix. -/
theorem pathGuard_monotone_witness :
    isProtectedPath "/System" = true ∧
    isProtectedPath ("/System" ++ "/Library/CoreServices") = true :=
  ⟨by decide, pathGuard_monotone "/System" "/Library/CoreServices" (by decide)⟩

/-- The distinct error kinds `removeItem` can surface: the protected-path
refusal thrown before any filesystem call (src/app.mjs line 161), and a
failing stat of the target, e.g. the target does not exist
(src/app.mjs line 164). -/
inductive RemoveError where
  | protectedPath
  | statFailed
deriving DecidableEq, Repr

/-- The top-level filesystem visible to the remover: an association of
absolute path strings to the subtrees rooted there. -/
def FileSystem : Type := List (String × FSTree)

/-- Look up the subtree rooted at a path. -/
def fsLookup (fs : FileSystem) (p : String) : Option FSTree :=
  match List.find? (fun e => e.1 == p) fs with
  | some e => some e.2
  | none => none

/-- Result of `fs.stat` on a root path: none when the path is absent or
its stat fails, otherwise the subtree there. -/
def statFS (fs : FileSystem) (p : String) : Option FSTree :=
  match fsLookup fs p with
  | some FSTree.denied => none
  | some t => some t
  | none => none

/-- Deleting the entry rooted at a path, as `fs.rm` with recursive force
does for a directory and `fs.unlink` for a file (src/app.mjs
lines 178-182): the whole subtree at that path goes away. -/
def fsRemove (fs : FileSystem) (p : String) : FileSystem :=
  List.filter (fun e => !(e.1 == p)) fs

/-- `removeItem` (src/app.mjs lines 155-188): refuse a protected path
before any filesystem access; stat the target (failure is an error);
aggregate its size even in dry-run mode; in dry-run mode report without
touching the filesystem, otherwise delete the target recursively.  The
function returns the outcome together with the resulting filesystem
state; an error leaves the state unchanged.  The source returns the size
report in both branches (wrapped with path and wouldRemove fields in the
dry-run branch, which is display glue). -/
def removeItem (fs : FileSystem) (itemPath : String) (dryRun : Bool) :
    Except RemoveError SizeReport × FileSystem :=
  if isProtectedPath itemPath then
    (Except.error RemoveError.protectedPath, fs)
  else
    match statFS fs itemPath with
    | none => (Except.error RemoveError.statFailed, fs)
    | some t =>
        if dryRun then
          (Except.ok (calculateSize t), fs)
        else
          (Except.ok (calculateSize t), fsRemove fs itemPath)

/-- C5: removing a protected path fails with the distinct protected-path
error kind — the guard runs before any filesystem access — and the
filesystem state is returned unchanged, in dry-run and real mode alike. -/
theorem remove_protected_refused (fs : FileSystem) (p : String) (dryRun : Bool)
    (h : isProtectedPath p = true) :
    removeItem fs p dryRun = (Except.error RemoveError.protectedPath, fs) := by
  simp [removeItem, h]

/-- Witness for C5 at the protected root "/System". -/
theorem remove_protected_refused_witness :
    isProtectedPath "/System" = true ∧
    removeItem [("/System", FSTree.dir true [])] "/System" false =
      (Except.error RemoveError.protectedPath, [("/System", FSTree.dir true [])]) :=
  ⟨by decide,
   remove_protected_refused [("/System", FSTree.dir true [])] "/System" false (by decide)⟩

/-- After deleting the entry at a path, looking that path up finds
nothing. -/
theorem fsLookup_fsRemove (fs : FileSystem) (p : String) :
    fsLookup (fsRemove fs p) p = none := by
  induction fs with
  | nil => rfl
  | cons e rest ih =>
      by_cases h : e.1 == p
      · simpa [fsRemove, List.filter, h] using ih
      · simp only [fsRemove, List.filter] at ih ⊢
        simp only [h, Bool.not_false, cond_true] at ih ⊢
        simpa [fsLookup, List.find?, h] using ih

/-- C6: on an existing, stat-able, non-protected path, a dry-run remove
reports exactly the size that aggregation of the target yields and
returns the filesystem unchanged, while a real remove reports the same
size and deletes the target, which afterwards no longer exists. -/
theorem remove_dryRun_frame (fs : FileSystem) (p : String) (t : FSTree)
    (hp : isProtectedPath p = false) (ht : statFS fs p = some t) :
    removeItem fs p true = (Except.ok (calculateSize t), fs) ∧
    removeItem fs p false = (Except.ok (calculateSize t), fsRemove fs p) ∧
    fsLookup (removeItem fs p false).2 p = none := by
  refine ⟨?_, ?_, ?_⟩ <;> simp [removeItem, hp, ht, fsLookup_fsRemove]

/-- Witness for C6 at a one-entry filesystem holding a 3-byte file. -/
theorem remove_dryRun_frame_witness :
    isProtectedPath "/tmp/x" = false ∧
    statFS [("/tmp/x", FSTree.file 3)] "/tmp/x" = some (FSTree.file 3) ∧
    (removeItem [("/tmp/x", FSTree.file 3)] "/tmp/x" true =
        (Except.ok (calculateSize (FSTree.file 3)), [("/tmp/x", FSTree.file 3)]) ∧
     removeItem [("/tmp/x", FSTree.file 3)] "/tmp/x" false =
        (Except.ok (calculateSize (FSTree.file 3)),
          fsRemove [("/tmp/x", FSTree.file 3)] "/tmp/x") ∧
     fsLookup (removeItem [("/tmp/x", FSTree.file 3)] "/tmp/x" false).2 "/tmp/x" = none) :=
  ⟨by decide, by rfl,
   remove_dryRun_frame [("/tmp/x", FSTree.file 3)] "/tmp/x" (FSTree.file 3)
     (by decide) (by rfl)⟩

/-- The worker ceiling (src/app.mjs line 36):
`this.maxWorkers = os.cpus().length`, the number of processing units. -/
def maxWorkersOf (cpuCount : Nat) : Nat := cpuCount

/-- Chunking of a job list as done by the loops
`for (let i = 0; i < list.length; i += k) chunk = list.slice(i, i + k)`
(src/app.mjs lines 76-77 and 139-141).  The source always invokes this
with a chunk size of at least one (a cpu count, or the constant 50). -/
def chunked (k : Nat) : List α → List (List α)
  | [] => []
  | x :: xs => (x :: List.take (k - 1) xs) :: chunked k (List.drop (k - 1) xs)
termination_by l => l.length
decreasing_by simp [List.length_drop]; omega

/-- Concatenation of the per-chunk result lists: the source pushes every
result of every awaited chunk into one shared results array. -/
def concatAll : List (List α) → List α
  | [] => []
  | c :: cs => c ++ concatAll cs

/-- `processPath` of `analyzeSystemData` (src/app.mjs lines 123-136):
aggregate one root path and keep the result, tagged with its path, only
when the total is positive. -/
def processPath (fsAt : String → FSTree) (p : String) : Option (String × SizeReport) :=
  let size := calculateSize (fsAt p)
  if 0 < size.totalBytes then some (p, size) else none

/-- The chunked dispatch of `analyzeSystemData` (src/app.mjs
lines 138-146): split the job list into chunks of the worker ceiling,
await each chunk fully before submitting the next, and collect every
per-path result.  Within a chunk the completion order is
scheduling-dependent; collection in submission order is one admissible
order, and the properties proved below are order-insensitive.  The final
presentation sort by descending size is display glue and not modelled. -/
def analyzeChunked (k : Nat) (fsAt : String → FSTree) (paths : List String) :
    List (String × SizeReport) :=
  concatAll (List.map (fun c => List.filterMap (processPath fsAt) c) (chunked k paths))

/-- The sequential loop of the earlier draft (src/unnamed/part_001,
`analyzeSystemData`): one path at a time, same per-path computation and
same positive-total filter. -/
def analyzeSeq (fsAt : String → FSTree) (paths : List String) :
    List (String × SizeReport) :=
  List.filterMap (processPath fsAt) paths

/-- Chunking then concatenating gives back the original list. -/
theorem concatAll_chunked (k : Nat) (l : List α) : concatAll (chunked k l) = l := by
  induction l using chunked.induct k with
  | case1 => rw [chunked]; rfl
  | case2 x xs ih =>
      rw [chunked, concatAll, ih]
      simp [List.take_append_drop]

/-- Concatenating per-chunk filterMap results equals one filterMap over
the concatenation. -/
theorem concatAll_map_filterMap (f : α → Option β) (L : List (List α)) :
    concatAll (List.map (fun c => List.filterMap f c) L) =
      List.filterMap f (concatAll L) := by
  induction L with
  | nil => rfl
  | cons c cs ih => simp [concatAll, List.filterMap_append, ih]

/-- The chunked dispatch and the sequential loop agree on every job list
and every chunk size. -/
theorem analyzeChunked_eq_seq (k : Nat) (fsAt : String → FSTree) (paths : List String) :
    analyzeChunked k fsAt paths = analyzeSeq fsAt paths := by
  rw [analyzeChunked, analyzeSeq, concatAll_map_filterMap, concatAll_chunked]

/-- C7: for every worker ceiling of at least one and every list of
independent root paths — empty, a single path, or more paths than the
ceiling — dispatching the size computation in ceiling-sized chunks
yields exactly the per-path results of the sequential one-at-a-time
loop. -/
theorem dispatch_refines_sequential (k : Nat) (fsAt : String → FSTree)
    (paths : List String) (hk : 0 < k) :
    analyzeChunked k fsAt paths = analyzeSeq fsAt paths :=
  analyzeChunked_eq_seq k fsAt paths

/-- A concrete filesystem assignment used by the dispatch witnesses. -/
def sampleFSAt : String → FSTree :=
  fun p =>
    if p == "/a" then FSTree.file 5
    else if p == "/b" then FSTree.dir true []
    else if p == "/c" then sampleTree
    else FSTree.denied

/-- Witness for C7 with three paths and a worker ceiling of two. -/
theorem dispatch_refines_sequential_witness :
    0 < 2 ∧
    analyzeChunked 2 sampleFSAt ["/a", "/b", "/c"] =
      analyzeSeq sampleFSAt ["/a", "/b", "/c"] :=
  ⟨by decide, dispatch_refines_sequential 2 sampleFSAt ["/a", "/b", "/c"] (by decide)⟩

/-- The fixed list of system-data locations scanned by `scan`
(src/app.mjs lines 10-22, `this.systemPaths`), with the home directory a
parameter standing for `os.homedir()`. -/
def systemPaths (home : String) : List String :=
  ["/private/var/db/diagnostics",
   "/private/var/folders",
   "/private/var/log",
   "/Library/Caches",
   "/Library/Logs",
   "/System/Library/Caches",
   "/private/var/vm",
   "/private/var/tmp",
   home ++ "/Library/Caches",
   home ++ "/Library/Containers",
   home ++ "/Library/Application Support"]

/-- `analyzeSystemData` (src/app.mjs lines 119-149): dispatch the fixed
system-data locations over the pool in chunks of the worker ceiling and
collect the per-path reports (the final sort by descending size is
display glue and not modelled). -/
def analyzeSystemData (cpus : Nat) (fsAt : String → FSTree) (home : String) :
    List (String × SizeReport) :=
  analyzeChunked (maxWorkersOf cpus) fsAt (systemPaths home)

/-- C8 counterexample: scanning a filesystem on which every location is
an existing empty directory returns the empty collection, although the
location "/private/var/log" was submitted — its zero-byte report is
dropped by the positive-total filter of processPath, so not every
submitted path has a result traceable to it. -/
theorem scan_drops_zero_reports :
    "/private/var/log" ∈ systemPaths "/Users/u" ∧
    analyzeSystemData 4 (fun _ => FSTree.dir true []) "/Users/u" = [] := by
  constructor
  · simp [systemPaths]
  · rw [analyzeSystemData, analyzeChunked_eq_seq]
    simp [analyzeSeq, systemPaths, processPath, calculateSize, procEntries]

/-- C8 as amended: the scan dispatch returns, for each system-data
location whose aggregate total is positive, exactly one result holding
that path and its aggregate report; every returned result is traceable
to a submitted location and carries that location's aggregate; locations
whose aggregate total is zero are omitted from the collection. -/
theorem scan_results_traceable (cpus : Nat) (fsAt : String → FSTree) (home : String)
    (hc : 0 < cpus) :
    analyzeSystemData cpus fsAt home =
      List.filterMap (processPath fsAt) (systemPaths home) ∧
    (∀ pr ∈ analyzeSystemData cpus fsAt home,
      pr.1 ∈ systemPaths home ∧ pr.2 = calculateSize (fsAt pr.1)) ∧
    (∀ p ∈ systemPaths home, 0 < (calculateSize (fsAt p)).totalBytes →
      (p, calculateSize (fsAt p)) ∈ analyzeSystemData cpus fsAt home) := by
  have heq : analyzeSystemData cpus fsAt home =
      List.filterMap (processPath fsAt) (systemPaths home) :=
    analyzeChunked_eq_seq (maxWorkersOf cpus) fsAt (systemPaths home)
  refine ⟨heq, ?_, ?_⟩
  · intro pr hpr
    rw [heq] at hpr
    obtain ⟨a, ha, hfa⟩ := List.mem_filterMap.mp hpr
    by_cases hpos : 0 < (calculateSize (fsAt a)).totalBytes
    · simp only [processPath, hpos, if_true] at hfa
      cases hfa
      exact ⟨ha, rfl⟩
    · simp [processPath, hpos] at hfa
  · intro p hp hpos
    rw [heq]
    exact List.mem_filterMap.mpr ⟨p, hp, by simp [processPath, hpos]⟩

/-- Witness for the amended C8: with four processing units and a home of
"/Users/u", the scan of the sample filesystem equals the sequential
filter of the location list. -/
theorem scan_results_traceable_witness :
    0 < 4 ∧
    analyzeSystemData 4 sampleFSAt "/Users/u" =
      List.filterMap (processPath sampleFSAt) (systemPaths "/Users/u") :=
  ⟨by decide, (scan_results_traceable 4 sampleFSAt "/Users/u" (by decide)).1⟩

/-- The fixed chunk size of the child-listing loop of `analyzePath`
(src/app.mjs line 75: `const chunkSize = 50`). -/
def inspectChunkSize : Nat := 50

/-- The chunks in which `analyzePath` submits the immediate children of
one directory (src/app.mjs lines 74-84): fixed chunks of 50 jobs, each
chunk fully awaited before the next is submitted. -/
def analyzePathChunks (items : List α) : List (List α) :=
  chunked inspectChunkSize items

/-- C9 counterexample: on a host with 8 processing units (worker ceiling
8), listing a directory of 60 children submits a first chunk of 50 jobs,
exceeding the ceiling — the chunk size is the constant 50, not the
worker ceiling. -/
theorem inspect_chunk_exceeds_worker_ceiling :
    maxWorkersOf 8 <
      (List.headD (analyzePathChunks (List.replicate 60 0)) []).length := by
  rw [analyzePathChunks, show (List.replicate 60 (0 : Nat)) = 0 :: List.replicate 59 0 from rfl,
    chunked]
  simp [maxWorkersOf, inspectChunkSize, List.take_replicate]

/-- C9 as amended: the child-listing dispatch submits jobs in chunks of
the fixed size 50 — bounded by the constant 50, not by the worker
ceiling — each chunk fully awaited before the next is submitted, and no
job is lost or duplicated by the chunking. -/
theorem inspect_chunks_bounded_by_50 :
    (∀ (items : List Nat) (c : List Nat),
      c ∈ analyzePathChunks items → c.length ≤ 50) ∧
    (∀ items : List Nat, concatAll (analyzePathChunks items) = items) := by
  constructor
  · intro items
    rw [analyzePathChunks]
    induction items using chunked.induct inspectChunkSize with
    | case1 => intro c hc; rw [chunked] at hc; simp at hc
    | case2 x xs ih =>
        intro c hc
        rw [chunked] at hc
        rcases List.mem_cons.mp hc with h | h
        · subst h
          simp only [List.length_cons, List.length_take, inspectChunkSize]
          omega
        · exact ih c h
  · intro items
    exact concatAll_chunked inspectChunkSize items

/-- Witness for the amended C9 at a concrete two-child listing. -/
theorem inspect_chunks_bounded_by_50_witness :
    ([0, 1] : List Nat).length ≤ 50 ∧
    concatAll (analyzePathChunks ([0, 1] : List Nat)) = [0, 1] :=
  ⟨inspect_chunks_bounded_by_50.1 [0, 1] [0, 1]
      (by rw [analyzePathChunks, show ([0, 1] : List Nat) = 0 :: [1] from rfl, chunked]
          simp [inspectChunkSize]),
   inspect_chunks_bounded_by_50.2 [0, 1]⟩
